import Mathlib

/-!
Verification of the `mayak::logger` single-header logging library
(`src/logger.hpp`) against its specification.

The embedding is shallow: the two global configuration variables
(`additionalInfo`, `logLevel`, lines 24-25 of the source) become a
`LoggerState` record that is passed explicitly; `_log` (lines 64-72),
which either returns without printing or writes one formatted line to
`std::cout`, becomes a pure function returning `Option String` (`none` =
early return, `some line` = the exact bytes written while the mutex is
held); the six wrappers `_trace` .. `_fatal` (lines 81-139) become the
corresponding Lean functions.  A small operation semantics (`step`,
`run`) models sequences of API calls against the mutable globals, and a
micro-step interleaving semantics (`MicroStep`) models the individual
`operator<<` writes performed under `logMutex` for the concurrency
property.
-/

namespace mayak.logger

/-- Enumeration `LogLevel` from lines 15-22 of `logger.hpp`.  The C++
enumerators take the values 0..5 in declaration order. -/
inductive LogLevel where
  | TRACE
  | DEBUG
  | INFO
  | WARN
  | ERROR
  | FATAL
deriving DecidableEq, Repr

/-- Numeric value of each enumerator, as assigned by the C++ enum
(`TRACE = 0`, ..., `FATAL = 5`); `level < logLevel` in the source
compares these values. -/
def LogLevel.toNat : LogLevel → Nat
  | .TRACE => 0
  | .DEBUG => 1
  | .INFO => 2
  | .WARN => 3
  | .ERROR => 4
  | .FATAL => 5

/-- The two mutable globals of lines 24-25 of `logger.hpp`
(`inline bool additionalInfo`, `inline LogLevel logLevel`), gathered in
a record so they can be threaded explicitly.  The mutex is not data; it
is modelled by the micro-step semantics below. -/
structure LoggerState where
  additionalInfo : Bool
  logLevel : LogLevel
deriving DecidableEq, Repr

/-- Initial values of the globals: `additionalInfo = false`,
`logLevel = INFO` (lines 24-25). -/
def initState : LoggerState :=
  { additionalInfo := false, logLevel := .INFO }

/-- Function `setLogLevel` (lines 33-35): assigns the global log level. -/
def setLogLevel (s : LoggerState) (level : LogLevel) : LoggerState :=
  { s with logLevel := level }

/-- Function `setAdditionalInfo` (lines 43-45): assigns the global
site-info flag. -/
def setAdditionalInfo (s : LoggerState) (value : Bool) : LoggerState :=
  { s with additionalInfo := value }

/-- Function `_log` (lines 64-72).  `if (level < logLevel) return;` is
the `none` branch; otherwise the bytes sent to `std::cout` while the
`lock_guard` is held are, in order: `"\033[" << color << "m"` (the
`Color` constructor, line 50), `"[" << levelStr << "] " << msg`
(line 68), conditionally `" at " << file << ":" << line` (lines 69-70),
`"\n"` (line 71), and `"\033[0m"` (the `Color` destructor, line 51,
which runs after line 71 and before the lock is released). -/
def _log (s : LoggerState) (level : LogLevel) (levelStr color : String)
    (msg : String) (file : String) (line : Int) : Option String :=
  if level.toNat < s.logLevel.toNat then none
  else some ("\x1b[" ++ color ++ "m" ++ "[" ++ levelStr ++ "] " ++ msg ++
    (if s.additionalInfo then " at " ++ file ++ ":" ++ toString line else "") ++
    "\n" ++ "\x1b[0m")

/-- Function `_trace` (lines 81-83). -/
def _trace (s : LoggerState) (msg : String) (file : String) (line : Int) :
    Option String :=
  _log s .TRACE "TRACE" "90" msg file line

/-- Function `_debug` (lines 92-94). -/
def _debug (s : LoggerState) (msg : String) (file : String) (line : Int) :
    Option String :=
  _log s .DEBUG "DEBUG" "36" msg file line

/-- Function `_info` (lines 103-105). -/
def _info (s : LoggerState) (msg : String) (file : String) (line : Int) :
    Option String :=
  _log s .INFO "INFO" "37" msg file line

/-- Function `_warn` (lines 114-116). -/
def _warn (s : LoggerState) (msg : String) (file : String) (line : Int) :
    Option String :=
  _log s .WARN "WARN" "33" msg file line

/-- Function `_error` (lines 125-127). -/
def _error (s : LoggerState) (msg : String) (file : String) (line : Int) :
    Option String :=
  _log s .ERROR "ERROR" "31" msg file line

/-- Function `_fatal` (lines 137-139). -/
def _fatal (s : LoggerState) (msg : String) (file : String) (line : Int) :
    Option String :=
  _log s .FATAL "FATAL" "41;97" msg file line

/-- One call of the public API, for sequencing calls against the
mutable globals. -/
inductive Op where
  | setLogLevel (level : LogLevel)
  | setAdditionalInfo (value : Bool)
  | logCall (level : LogLevel) (levelStr color : String)
      (msg : String) (file : String) (line : Int)
deriving DecidableEq

/-- Effect of one API call on the globals: the resulting state and the
list of lines written to `std::cout` (the setters, lines 33-35 and
43-45, only assign; `_log` writes at most one line). -/
def step (s : LoggerState) : Op → LoggerState × List String
  | .setLogLevel level => (setLogLevel s level, [])
  | .setAdditionalInfo value => (setAdditionalInfo s value, [])
  | .logCall level levelStr color msg file line =>
      (s, (_log s level levelStr color msg file line).toList)

/-- Sequential execution of a list of API calls, accumulating output. -/
def run (s : LoggerState) : List Op → LoggerState × List String
  | [] => (s, [])
  | op :: ops =>
      let r := step s op
      let r2 := run r.1 ops
      (r2.1, r.2 ++ r2.2)

/-- Modelled from the spec (section 6, output line format): the template
`<ESC>[<colorCode>m[<LABEL>] <message>[ at <file>:<line>]<newline><ESC>[0m`,
with the site suffix controlled by `site`.  Stated independently of
`_log` so the code's output can be compared against it. -/
def specLine (color label msg : String) (site : Option (String × Int)) : String :=
  "\x1b[" ++ color ++ "m" ++ "[" ++ label ++ "] " ++ msg ++
    (match site with
      | none => ""
      | some (f, l) => " at " ++ f ++ ":" ++ toString l) ++
    "\n" ++ "\x1b[0m"

/-!
Micro-step model of the mutex-guarded write path, for the concurrency
property.  One `_log` call that passed the severity gate performs, in
the source, a sequence of individual `operator<<` writes to `std::cout`
while `logMutex` is held: the `Color` constructor's three writes
(line 50), the four writes of line 68, the four writes of lines 69-70
when `additionalInfo` is set, the `"\n"` of line 71 and the `Color`
destructor's write (line 51).  Threads interleave at the granularity of
these writes; `std::lock_guard` (line 66) guarantees that between one
thread's first write and its last no other thread writes.  The claim
fixes one configuration (no concurrent setter calls, every call at or
above the minimum level), so the gate is already decided and the
configuration is a constant of the model.
-/

/-- Arguments of one pending `_log` call that passes the severity gate. -/
structure LogCall where
  levelStr : String
  color : String
  msg : String
  file : String
  line : Int
deriving DecidableEq

/-- The successive strings `_log` sends to `std::cout` for one call, in
order, one list element per `operator<<` (lines 50, 68-71 and 51 of the
source). -/
def logChunks (info : Bool) (r : LogCall) : List String :=
  ["\x1b[", r.color, "m", "[", r.levelStr, "] ", r.msg] ++
    (if info then [" at ", r.file, ":", toString r.line] else []) ++
    ["\n", "\x1b[0m"]

/-- Concatenation of a list of strings. -/
def catStrings : List String → String
  | [] => ""
  | c :: cs => c ++ catStrings cs

/-- The complete formatted line of one call: all its chunks in order. -/
def lineOf (info : Bool) (r : LogCall) : String :=
  catStrings (logChunks info r)

/-- Execution state of one thread: either between `_log` calls with a
list of calls still to make, or inside `_log` holding the mutex with
`k` chunks of the current call already written. -/
inductive TState where
  | idle (pending : List LogCall)
  | emitting (r : LogCall) (k : Nat) (pending : List LogCall)
deriving DecidableEq

/-- Global state of the interleaved execution: the fixed site-info
flag, one `TState` per thread, the mutex owner (`none` = free,
`some t` = held by thread `t`), and everything written to `std::cout`
so far. -/
structure Sys where
  info : Bool
  threads : List TState
  lock : Option Nat
  out : String
deriving DecidableEq

/-- One atomic action of the interleaved execution: a thread passes the
gate and acquires the free mutex (`start`), the mutex owner performs
its next `operator<<` (`emit`), or the mutex owner finishes the call
and the `lock_guard` releases the mutex (`finish`). -/
inductive MicroStep : Sys → Sys → Prop where
  | start (s : Sys) (t : Nat) (r : LogCall) (rest : List LogCall)
      (hlock : s.lock = none)
      (ht : s.threads[t]? = some (.idle (r :: rest))) :
      MicroStep s { s with lock := some t,
                           threads := s.threads.set t (.emitting r 0 rest) }
  | emit (s : Sys) (t : Nat) (r : LogCall) (k : Nat) (rest : List LogCall)
      (c : String)
      (hlock : s.lock = some t)
      (ht : s.threads[t]? = some (.emitting r k rest))
      (hc : (logChunks s.info r)[k]? = some c) :
      MicroStep s { s with threads := s.threads.set t (.emitting r (k + 1) rest),
                           out := s.out ++ c }
  | finish (s : Sys) (t : Nat) (r : LogCall) (rest : List LogCall)
      (hlock : s.lock = some t)
      (ht : s.threads[t]? = some (.emitting r (logChunks s.info r).length rest)) :
      MicroStep s { s with lock := none,
                           threads := s.threads.set t (.idle rest) }

/-- Any number of atomic actions. -/
def Steps : Sys → Sys → Prop :=
  Relation.ReflTransGen MicroStep

/-- Initial state: every thread has its workload pending, the mutex is
free, nothing is written. -/
def init (info : Bool) (workloads : List (List LogCall)) : Sys :=
  { info := info, threads := workloads.map .idle, lock := none, out := "" }

/-- A state in which every thread has completed all its calls. -/
def finished (s : Sys) : Prop :=
  ∀ ts ∈ s.threads, ts = .idle []

/-- Calls a thread has not yet completed (a call being emitted counts
as not completed). -/
def TState.pendingCalls : TState → List LogCall
  | .idle p => p
  | .emitting r _ p => r :: p

/-- Mutex discipline: when the mutex is free every thread is between
calls; when thread `t` holds it, `t` is mid-emission and every other
thread is between calls. -/
def LockOk (s : Sys) : Prop :=
  (s.lock = none → ∀ ts ∈ s.threads, ∃ p, ts = .idle p) ∧
  (∀ t, s.lock = some t →
    (∃ r k rest, s.threads[t]? = some (.emitting r k rest)) ∧
    ∀ i, i ≠ t → ∀ ts, s.threads[i]? = some ts → ∃ p, ts = .idle p)

/-- Output discipline: the bytes written so far are the complete lines
of the finished calls `done`, followed, when the mutex is held, by the
chunks the owner has written of its current call. -/
def OutOk (info : Bool) (s : Sys) (done : List LogCall) : Prop :=
  (s.lock = none → s.out = catStrings (done.map (lineOf info))) ∧
  (∀ t r k rest, s.lock = some t → s.threads[t]? = some (.emitting r k rest) →
    s.out = catStrings (done.map (lineOf info)) ++
      catStrings ((logChunks info r).take k))

/-- Invariant of the interleaved execution: the mutex discipline holds
and the output is a sequence of complete lines plus the owner's
in-progress chunk sequence, with the completed and pending calls
together a permutation of all calls. -/
def Inv (info : Bool) (allCalls : List LogCall) (s : Sys) : Prop :=
  s.info = info ∧ LockOk s ∧
  ∃ done : List LogCall,
    (done ++ (s.threads.map TState.pendingCalls).flatten).Perm allCalls ∧
    OutOk info s done

/-- A concrete gated call, for exercising the micro-step model: an
`INFO`-level call of message `"hi"` from `"f":1`. -/
def demoCall : LogCall :=
  { levelStr := "INFO", color := "37", msg := "hi", file := "f", line := 1 }

/-- The state after one thread performs `demoCall` to completion with
the site-info flag off. -/
def demoFinal : Sys :=
  { info := false, threads := [TState.idle []], lock := none,
    out := "\x1b[37m[INFO] hi\n\x1b[0m" }

/-- C1: a logging call at severity `s` writes a line iff `s >= t` for the
current minimum level `t`; in particular a call one level below the
minimum writes nothing, and with the minimum level `FATAL` exactly the
`FATAL` calls write. -/
theorem log_gate_iff (s : LoggerState) (level : LogLevel)
    (levelStr color msg file : String) (line : Int) :
    ((_log s level levelStr color msg file line).isSome ↔
      s.logLevel.toNat ≤ level.toNat) ∧
    (level.toNat + 1 = s.logLevel.toNat →
      _log s level levelStr color msg file line = none) ∧
    (s.logLevel = .FATAL →
      ((_log s level levelStr color msg file line).isSome ↔ level = .FATAL)) := by
  refine ⟨?_, ?_, ?_⟩
  · simp only [_log]
    split <;> simp <;> omega
  · intro h
    simp only [_log]
    rw [if_pos (by omega)]
  · intro h
    cases level <;> simp [_log, LogLevel.toNat, h]

/-- Witness for `log_gate_iff` at a concrete state with minimum level
`FATAL` and a `FATAL` call. -/
theorem log_gate_iff_witness :
    (_log { additionalInfo := false, logLevel := .FATAL }
        .FATAL "FATAL" "41;97" "m" "f" 1).isSome ↔ LogLevel.FATAL = LogLevel.FATAL :=
  (log_gate_iff { additionalInfo := false, logLevel := .FATAL }
    .FATAL "FATAL" "41;97" "m" "f" 1).2.2 rfl

/-- C2: every call that passes the gate writes exactly the bytes
`ESC [ color m [ label ] SP msg (" at " file ":" line)? NL ESC [0m`,
with the reset sequence after the newline whether or not the site
suffix was printed; `specLine` spells out that template. -/
theorem log_output_format (s : LoggerState) (level : LogLevel)
    (levelStr color msg file : String) (line : Int)
    (h : s.logLevel.toNat ≤ level.toNat) :
    _log s level levelStr color msg file line =
      some (specLine color levelStr msg
        (if s.additionalInfo then some (file, line) else none)) := by
  simp only [_log, specLine]
  rw [if_neg (by omega)]
  cases hA : s.additionalInfo <;> simp

/-- Witness for `log_output_format`: an `INFO` call in the initial
state. -/
theorem log_output_format_witness :
    _log initState .INFO "INFO" "37" "hello" "f" 3 =
      some (specLine "37" "INFO" "hello"
        (if initState.additionalInfo then some ("f", 3) else none)) :=
  log_output_format initState .INFO "INFO" "37" "hello" "f" 3 (by decide)

/-- C3: with the site-info flag off, every line that is written is the
template without the `" at file:line"` suffix; with the flag on, every
line that is written carries exactly the file and line passed at the
call site. -/
theorem site_info_suffix (s : LoggerState) (level : LogLevel)
    (levelStr color msg file : String) (line : Int) :
    (s.additionalInfo = false →
      _log s level levelStr color msg file line = none ∨
      _log s level levelStr color msg file line =
        some (specLine color levelStr msg none)) ∧
    (s.additionalInfo = true →
      _log s level levelStr color msg file line = none ∨
      _log s level levelStr color msg file line =
        some (specLine color levelStr msg (some (file, line)))) := by
  constructor <;> intro hA <;> simp only [_log, specLine, hA] <;> split <;> simp

/-- Witness for `site_info_suffix`: a `TRACE` call in the initial state
(flag off). -/
theorem site_info_suffix_witness :
    _log initState .TRACE "TRACE" "90" "m" "f" 1 = none ∨
    _log initState .TRACE "TRACE" "90" "m" "f" 1 =
      some (specLine "90" "TRACE" "m" none) :=
  (site_info_suffix initState .TRACE "TRACE" "90" "m" "f" 1).1 rfl

/-- C4: each of the six entry points calls `_log` with its fixed
severity, label and color code, forwarding message, file and line
unchanged. -/
theorem entry_points_delegate (s : LoggerState) (msg file : String) (line : Int) :
    _trace s msg file line = _log s .TRACE "TRACE" "90" msg file line ∧
    _debug s msg file line = _log s .DEBUG "DEBUG" "36" msg file line ∧
    _info s msg file line = _log s .INFO "INFO" "37" msg file line ∧
    _warn s msg file line = _log s .WARN "WARN" "33" msg file line ∧
    _error s msg file line = _log s .ERROR "ERROR" "31" msg file line ∧
    _fatal s msg file line = _log s .FATAL "FATAL" "41;97" msg file line :=
  ⟨rfl, rfl, rfl, rfl, rfl, rfl⟩

/-- C5: the initial state has minimum level `INFO` and the site-info
flag off, so an initial `TRACE` or `DEBUG` call writes nothing and an
initial `INFO` call writes a line without the site suffix. -/
theorem initial_state_defaults (msg file : String) (line : Int) :
    initState.logLevel = .INFO ∧
    initState.additionalInfo = false ∧
    _trace initState msg file line = none ∧
    _debug initState msg file line = none ∧
    _info initState msg file line = some (specLine "37" "INFO" msg none) :=
  ⟨rfl, rfl, rfl, rfl, rfl⟩

/-- C6: `setLogLevel` assigns the level, leaves the site-info flag
unchanged and writes nothing; `setAdditionalInfo` assigns the flag,
leaves the level unchanged and writes nothing. -/
theorem setters_frame (s : LoggerState) (level : LogLevel) (value : Bool) :
    (setLogLevel s level).logLevel = level ∧
    (setLogLevel s level).additionalInfo = s.additionalInfo ∧
    (step s (.setLogLevel level)).2 = [] ∧
    (setAdditionalInfo s value).additionalInfo = value ∧
    (setAdditionalInfo s value).logLevel = s.logLevel ∧
    (step s (.setAdditionalInfo value)).2 = [] :=
  ⟨rfl, rfl, rfl, rfl, rfl, rfl⟩

/-- C7: calling `setLogLevel` twice in a row with the same value yields
the same resulting state and the same output as calling it once. -/
theorem setLogLevel_idempotent (s : LoggerState) (level : LogLevel) :
    run s [.setLogLevel level, .setLogLevel level] = run s [.setLogLevel level] :=
  rfl

/-- C9: `_fatal` is exactly the generic gated routine at its fixed
severity, label and color code — it defines no special control flow and
always returns like the other five entry points. -/
theorem fatal_no_special_control_flow (s : LoggerState) (msg file : String)
    (line : Int) :
    _fatal s msg file line = _log s .FATAL "FATAL" "41;97" msg file line :=
  rfl

/-- C10: gating is monotone in the threshold — a call that writes at
minimum level `t` still writes after the level is lowered to `t2 ≤ t`. -/
theorem gate_monotone (s : LoggerState) (t2 : LogLevel) (level : LogLevel)
    (levelStr color msg file : String) (line : Int)
    (hle : t2.toNat ≤ s.logLevel.toNat)
    (hout : (_log s level levelStr color msg file line).isSome) :
    (_log (setLogLevel s t2) level levelStr color msg file line).isSome := by
  by_cases hg : level.toNat < s.logLevel.toNat
  · simp [_log, hg] at hout
  · have hg2 : ¬ level.toNat < t2.toNat := by omega
    simp [_log, setLogLevel, hg2]

/-- Witness for `gate_monotone`: an `INFO` call that writes at the
default level still writes after lowering the level to `TRACE`. -/
theorem gate_monotone_witness :
    (_log (setLogLevel initState .TRACE) .INFO "INFO" "37" "m" "f" 1).isSome :=
  gate_monotone initState .TRACE .INFO "INFO" "37" "m" "f" 1 (by decide) (by rfl)

/-- Concatenation of chunk lists distributes over append. -/
theorem catStrings_append (a b : List String) :
    catStrings (a ++ b) = catStrings a ++ catStrings b := by
  induction a with
  | nil => simp [catStrings, String.empty_append]
  | cons hd tl ih => simp [catStrings, ih, String.append_assoc]

/-- The chunks of one call concatenate to the line `_log` writes for
it, in the spec's template. -/
theorem lineOf_eq_specLine (info : Bool) (r : LogCall) :
    lineOf info r = specLine r.color r.levelStr r.msg
      (if info then some (r.file, r.line) else none) := by
  cases info <;>
    simp only [lineOf, logChunks, specLine, Bool.false_eq_true, eq_self_iff_true,
      if_true, if_false, List.cons_append, List.nil_append, catStrings,
      String.append_assoc, String.append_empty]

/-- Replacing a list element by one with the same image leaves the
mapped list unchanged. -/
theorem map_set_congr {α β : Type} (f : α → β) (l : List α) (t : Nat) (a b : α)
    (h : l[t]? = some a) (hf : f a = f b) : (l.set t b).map f = l.map f := by
  induction l generalizing t with
  | nil => simp at h
  | cons hd tl ih =>
    cases t with
    | zero =>
      simp only [List.getElem?_cons_zero, Option.some.injEq] at h
      subst h
      simp [List.set, ← hf]
    | succ n =>
      simp only [List.set, List.map_cons, List.cons.injEq, true_and]
      exact ih n (by simpa using h)

/-- Replacing element `a` by `b` at an occupied position, when
`f a = x :: f b`, moves `x` out of the flattened image up to
permutation. -/
theorem flatten_set_perm {α β : Type} (f : α → List β) (l : List α) (t : Nat)
    (a b : α) (x : β) (h : l[t]? = some a) (hf : f a = x :: f b) :
    ((l.map f).flatten).Perm (x :: ((l.set t b).map f).flatten) := by
  induction l generalizing t with
  | nil => simp at h
  | cons hd tl ih =>
    cases t with
    | zero =>
      simp only [List.getElem?_cons_zero, Option.some.injEq] at h
      subst h
      simp [List.set, hf]
    | succ n =>
      simp only [List.set, List.map_cons, List.flatten_cons]
      exact (List.Perm.append_left (f hd) (ih n (by simpa using h))).trans
        List.perm_middle

/-- When every element of a list of workloads has length `M`, its
flattening has length `N * M` for `N` workloads. -/
theorem flatten_length_const (M : Nat) (l : List (List LogCall))
    (h : ∀ w ∈ l, w.length = M) : l.flatten.length = l.length * M := by
  induction l with
  | nil => simp
  | cons hd tl ih =>
    rw [List.flatten_cons, List.length_append, h hd (List.mem_cons_self hd tl),
      ih (fun w hw => h w (List.mem_cons_of_mem hd hw)), List.length_cons,
      Nat.succ_mul, Nat.add_comm]

/-- One atomic action preserves the invariant. -/
theorem micro_inv (info : Bool) (allCalls : List LogCall) (s s2 : Sys)
    (hstep : MicroStep s s2) (hinv : Inv info allCalls s) :
    Inv info allCalls s2 := by
  obtain ⟨hinfo, hlk, done, hperm, hout⟩ := hinv
  cases hstep with
  | start t r rest hlock ht =>
    have htlen : t < s.threads.length := (List.getElem?_eq_some.mp ht).1
    refine ⟨hinfo, ⟨?_, ?_⟩, done, ?_, ?_, ?_⟩
    · intro h
      exact absurd h (Option.some_ne_none t)
    · intro t2 h
      have h2 : t = t2 := by
        injection h with h3
      subst h2
      refine ⟨⟨r, 0, rest, ?_⟩, ?_⟩
      · exact List.getElem?_set_self htlen
      · intro i hne ts hts
        replace hts : s.threads[i]? = some ts := by
          have h4 : (s.threads.set t (TState.emitting r 0 rest))[i]? = some ts := hts
          rwa [List.getElem?_set_ne (by omega)] at h4
        exact hlk.1 hlock ts (List.getElem?_mem hts)
    · dsimp only
      rw [map_set_congr TState.pendingCalls s.threads t (.idle (r :: rest))
        (.emitting r 0 rest) ht rfl]
      exact hperm
    · intro h
      exact absurd h (Option.some_ne_none t)
    · intro t2 r2 k2 rest2 hl2 ht2
      have h2 : t = t2 := by
        injection hl2 with h3
      subst h2
      replace ht2 : (s.threads.set t (TState.emitting r 0 rest))[t]? =
          some (.emitting r2 k2 rest2) := ht2
      rw [List.getElem?_set_self htlen] at ht2
      simp only [Option.some.injEq, TState.emitting.injEq] at ht2
      obtain ⟨rfl, rfl, rfl⟩ := ht2
      dsimp only
      rw [hout.1 hlock]
      simp [catStrings]
  | emit t r k rest c hlock ht hc =>
    have htlen : t < s.threads.length := (List.getElem?_eq_some.mp ht).1
    rw [hinfo] at hc
    refine ⟨hinfo, ⟨?_, ?_⟩, done, ?_, ?_, ?_⟩
    · intro h
      exact absurd (hlock.symm.trans h) (Option.some_ne_none t)
    · intro t2 h
      have h2 : t = t2 := by
        injection hlock.symm.trans h with h3
      subst h2
      refine ⟨⟨r, k + 1, rest, ?_⟩, ?_⟩
      · exact List.getElem?_set_self htlen
      · intro i hne ts hts
        replace hts : s.threads[i]? = some ts := by
          have h4 : (s.threads.set t (TState.emitting r (k + 1) rest))[i]? =
              some ts := hts
          rwa [List.getElem?_set_ne (by omega)] at h4
        exact (hlk.2 t hlock).2 i hne ts hts
    · dsimp only
      rw [map_set_congr TState.pendingCalls s.threads t (.emitting r k rest)
        (.emitting r (k + 1) rest) ht rfl]
      exact hperm
    · intro h
      exact absurd (hlock.symm.trans h) (Option.some_ne_none t)
    · intro t2 r2 k2 rest2 hl2 ht2
      have h2 : t = t2 := by
        injection hlock.symm.trans hl2 with h3
      subst h2
      replace ht2 : (s.threads.set t (TState.emitting r (k + 1) rest))[t]? =
          some (.emitting r2 k2 rest2) := ht2
      rw [List.getElem?_set_self htlen] at ht2
      simp only [Option.some.injEq, TState.emitting.injEq] at ht2
      obtain ⟨rfl, rfl, rfl⟩ := ht2
      have h1 := hout.2 t r k rest hlock ht
      dsimp only
      rw [h1, List.take_succ, hc]
      simp [catStrings_append, catStrings, String.append_assoc,
        String.append_empty]
  | finish t r rest hlock ht =>
    have htlen : t < s.threads.length := (List.getElem?_eq_some.mp ht).1
    rw [hinfo] at ht
    refine ⟨hinfo, ⟨?_, ?_⟩, done ++ [r], ?_, ?_, ?_⟩
    · intro _ ts hts
      obtain ⟨i, hi⟩ := List.mem_iff_getElem?.mp hts
      replace hi : (s.threads.set t (TState.idle rest))[i]? = some ts := hi
      by_cases hit : i = t
      · subst hit
        rw [List.getElem?_set_self htlen] at hi
        exact ⟨rest, (Option.some.injEq _ _ ▸ hi).symm⟩
      · rw [List.getElem?_set_ne (by omega)] at hi
        exact (hlk.2 t hlock).2 i hit ts hi
    · intro t2 h
      exact absurd h.symm (Option.some_ne_none t2)
    · dsimp only
      have hset := flatten_set_perm TState.pendingCalls s.threads t
        (.emitting r (logChunks info r).length rest) (.idle rest) r ht rfl
      rw [List.append_assoc]
      exact (List.Perm.append_left done hset.symm).trans hperm
    · intro _
      have h1 := hout.2 t r (logChunks info r).length rest hlock ht
      rw [List.take_length] at h1
      dsimp only
      rw [h1]
      simp [catStrings_append, catStrings, lineOf, String.append_assoc,
        String.append_empty]
    · intro t2 r2 k2 rest2 h _
      exact absurd h.symm (Option.some_ne_none t2)

/-- Any number of atomic actions preserves the invariant. -/
theorem steps_inv (info : Bool) (allCalls : List LogCall) {s s2 : Sys}
    (h : Steps s s2) (hinv : Inv info allCalls s) : Inv info allCalls s2 := by
  induction h with
  | refl => exact hinv
  | tail _ hstep ih => exact micro_inv info allCalls _ _ hstep ih

/-- The initial state satisfies the invariant. -/
theorem init_inv (info : Bool) (workloads : List (List LogCall)) :
    Inv info workloads.flatten (init info workloads) := by
  refine ⟨rfl, ⟨?_, ?_⟩, [], ?_, ?_, ?_⟩
  · intro _ ts hts
    obtain ⟨w, _, rfl⟩ := List.mem_map.mp hts
    exact ⟨w, rfl⟩
  · intro t h
    exact absurd h.symm (Option.some_ne_none t)
  · simp only [init, List.map_map, List.nil_append]
    rw [show TState.pendingCalls ∘ TState.idle = id from rfl, List.map_id]
  · intro _
    rfl
  · intro t2 r2 k2 rest2 h _
    exact absurd h.symm (Option.some_ne_none t2)

/-- C8: when the threads of `workloads` run their gated logging calls
to completion under the mutex, the bytes on the output stream are a
concatenation of the complete formatted lines of all the calls, one per
call, in some order (a permutation of all calls, so with N threads of M
calls each there are exactly N * M lines); no two lines interleave. -/
theorem log_lines_serialized (info : Bool) (workloads : List (List LogCall))
    (s : Sys) (hsteps : Steps (init info workloads) s) (hfin : finished s) :
    ∃ order : List LogCall,
      order.Perm workloads.flatten ∧
      s.out = catStrings (order.map (lineOf info)) ∧
      ∀ M : Nat, (∀ w ∈ workloads, w.length = M) →
        order.length = workloads.length * M := by
  obtain ⟨hinfo, hlk, done, hperm, hout⟩ :=
    steps_inv info workloads.flatten hsteps (init_inv info workloads)
  have hlock : s.lock = none := by
    cases hl : s.lock with
    | none => rfl
    | some t =>
      obtain ⟨⟨r, k, rest, ht⟩, _⟩ := hlk.2 t hl
      have h2 := hfin _ (List.getElem?_mem ht)
      simp at h2
  have hpend : (s.threads.map TState.pendingCalls).flatten = [] := by
    apply List.flatten_eq_nil_iff.mpr
    intro x hx
    obtain ⟨ts, hts, rfl⟩ := List.mem_map.mp hx
    rw [hfin ts hts]
    rfl
  rw [hpend, List.append_nil] at hperm
  refine ⟨done, hperm, hout.1 hlock, ?_⟩
  intro M hM
  rw [hperm.length_eq, flatten_length_const M workloads hM]

/-- Witness for `log_lines_serialized`: one thread runs `demoCall` to
completion through an explicit schedule of the eleven atomic actions
(acquire, nine writes, release). -/
theorem log_lines_serialized_witness :
    ∃ order : List LogCall,
      order.Perm [[demoCall]].flatten ∧
      demoFinal.out = catStrings (order.map (lineOf false)) ∧
      ∀ M : Nat, (∀ w ∈ [[demoCall]], w.length = M) →
        order.length = [[demoCall]].length * M := by
  refine log_lines_serialized false [[demoCall]] demoFinal ?_ ?_
  · have h1 : MicroStep (init false [[demoCall]])
        ⟨false, [.emitting demoCall 0 []], some 0, ""⟩ :=
      MicroStep.start (init false [[demoCall]]) 0 demoCall [] rfl rfl
    have h2 : MicroStep ⟨false, [.emitting demoCall 0 []], some 0, ""⟩
        ⟨false, [.emitting demoCall 1 []], some 0, "\x1b["⟩ :=
      MicroStep.emit _ 0 demoCall 0 [] "\x1b[" rfl rfl rfl
    have h3 : MicroStep ⟨false, [.emitting demoCall 1 []], some 0, "\x1b["⟩
        ⟨false, [.emitting demoCall 2 []], some 0, "\x1b[37"⟩ :=
      MicroStep.emit _ 0 demoCall 1 [] "37" rfl rfl rfl
    have h4 : MicroStep ⟨false, [.emitting demoCall 2 []], some 0, "\x1b[37"⟩
        ⟨false, [.emitting demoCall 3 []], some 0, "\x1b[37m"⟩ :=
      MicroStep.emit _ 0 demoCall 2 [] "m" rfl rfl rfl
    have h5 : MicroStep ⟨false, [.emitting demoCall 3 []], some 0, "\x1b[37m"⟩
        ⟨false, [.emitting demoCall 4 []], some 0, "\x1b[37m["⟩ :=
      MicroStep.emit _ 0 demoCall 3 [] "[" rfl rfl rfl
    have h6 : MicroStep ⟨false, [.emitting demoCall 4 []], some 0, "\x1b[37m["⟩
        ⟨false, [.emitting demoCall 5 []], some 0, "\x1b[37m[INFO"⟩ :=
      MicroStep.emit _ 0 demoCall 4 [] "INFO" rfl rfl rfl
    have h7 : MicroStep ⟨false, [.emitting demoCall 5 []], some 0, "\x1b[37m[INFO"⟩
        ⟨false, [.emitting demoCall 6 []], some 0, "\x1b[37m[INFO] "⟩ :=
      MicroStep.emit _ 0 demoCall 5 [] "] " rfl rfl rfl
    have h8 : MicroStep ⟨false, [.emitting demoCall 6 []], some 0, "\x1b[37m[INFO] "⟩
        ⟨false, [.emitting demoCall 7 []], some 0, "\x1b[37m[INFO] hi"⟩ :=
      MicroStep.emit _ 0 demoCall 6 [] "hi" rfl rfl rfl
    have h9 : MicroStep ⟨false, [.emitting demoCall 7 []], some 0, "\x1b[37m[INFO] hi"⟩
        ⟨false, [.emitting demoCall 8 []], some 0, "\x1b[37m[INFO] hi\n"⟩ :=
      MicroStep.emit _ 0 demoCall 7 [] "\n" rfl rfl rfl
    have h10 : MicroStep ⟨false, [.emitting demoCall 8 []], some 0, "\x1b[37m[INFO] hi\n"⟩
        ⟨false, [.emitting demoCall 9 []], some 0, "\x1b[37m[INFO] hi\n\x1b[0m"⟩ :=
      MicroStep.emit _ 0 demoCall 8 [] "\x1b[0m" rfl rfl rfl
    have h11 : MicroStep
        ⟨false, [.emitting demoCall 9 []], some 0, "\x1b[37m[INFO] hi\n\x1b[0m"⟩
        demoFinal :=
      MicroStep.finish _ 0 demoCall [] rfl rfl
    exact Relation.ReflTransGen.head h1 (Relation.ReflTransGen.head h2
      (Relation.ReflTransGen.head h3 (Relation.ReflTransGen.head h4
      (Relation.ReflTransGen.head h5 (Relation.ReflTransGen.head h6
      (Relation.ReflTransGen.head h7 (Relation.ReflTransGen.head h8
      (Relation.ReflTransGen.head h9 (Relation.ReflTransGen.head h10
      (Relation.ReflTransGen.single h11))))))))))
  · intro ts hts
    exact List.mem_singleton.mp hts

end mayak.logger
